import Mathlib

/-!
Shallow embedding of `src/main.rs` (hitchhooker/wmouse): a keyboard-driven
virtual mouse.  The tick function `State.update_and_handle_mouse_state`, the
Wayland dispatch handlers, and the constants are transcribed from the source.

Float modelling note: the source stores coordinates in `f64`.  Every value the
program ever holds in these fields is a small integer (sums of `±10.0` steps,
clamped to `[0,1920]`/`[0,1080]`), and on such values `f64` addition,
subtraction, `max`, `min` and the product `x * 65535.0` are exact, so we model
the fields with `ℚ`.  The final division `x * 65535.0 / 1920.0` (resp. `1080`)
is the one possibly-inexact `f64` step; for integer `x` in range the exact
quotient `x·4369/128` (resp. `x·4369/72`) is either an exact dyadic rational or
lies at distance at least `1/72` from every integer, while the `f64` rounding
error is below `10⁻¹¹`, so the truncation performed by `as u32` agrees with the
truncation of the exact rational value, which is what we use.
-/

/-! ## Key mappings and mouse settings (src/main.rs lines 25-36) -/

def META_KEY : ℕ := 125
def MOVE_LEFT : ℕ := 105
def MOVE_RIGHT : ℕ := 106
def MOVE_UP : ℕ := 103
def MOVE_DOWN : ℕ := 108
def MOUSE_LEFT : ℕ := 97
def MOUSE_RIGHT : ℕ := 96

def MOUSE_SPEED : ℚ := 10

/-- Standard Linux button codes (src/main.rs lines 125-126). -/
def BTN_LEFT : ℕ := 0x110
def BTN_RIGHT : ℕ := 0x111

/-! ## Data model -/

/-- `struct MouseState` (src/main.rs lines 55-63). -/
structure MouseState where
  dx : ℚ
  dy : ℚ
  left_click : Bool
  right_click : Bool
  x : ℚ
  y : ℚ
deriving DecidableEq, Repr

/-- `#[derive(Default)]` for `MouseState`: zeroes and `false`s. -/
def MouseState.default : MouseState :=
  { dx := 0, dy := 0, left_click := false, right_click := false, x := 0, y := 0 }

/-- `struct State` (src/main.rs lines 65-71).  The two Wayland proxy objects
are opaque; we model each as an `Option ℕ` whose payload is an identity tag,
so that "the handle is never replaced" is expressible. -/
structure State where
  pointer_manager : Option ℕ
  virtual_pointer : Option ℕ
  active_keys : Finset ℕ
  prev_left_click : Bool
  prev_right_click : Bool
deriving DecidableEq

/-- `State::new` (src/main.rs lines 74-82). -/
def State.new : State :=
  { pointer_manager := none, virtual_pointer := none, active_keys := ∅,
    prev_left_click := false, prev_right_click := false }

/-- One call on the virtual-pointer proxy, as issued by the tick function:
`motion_absolute(time, x, y, x_extent, y_extent)`, `button(time, code, state)`
(with `pressed = true` for `ButtonState::Pressed`), or `frame()`. -/
inductive SinkEvent where
  | motionAbsolute (time : ℕ) (x : ℕ) (y : ℕ) (xExtent : ℕ) (yExtent : ℕ)
  | button (time : ℕ) (code : ℕ) (pressed : Bool)
  | frame
deriving DecidableEq, Repr

/-- Rust's `f64 as u32` cast: truncation toward zero, saturating at the bounds
of `u32` (negative values map to `0`, values above `u32::MAX` to `u32::MAX`). -/
def f64_as_u32 (q : ℚ) : ℕ :=
  if q ≤ 0 then 0 else min (Int.toNat ⌊q⌋) 4294967295

/-! ## The tick function -/

/-- `State::update_and_handle_mouse_state` (src/main.rs lines 84-146),
transcribed statement by statement.  Besides the returned `MouseState` we make
explicit the updated `State` (the Rust method mutates `self.prev_left_click` /
`self.prev_right_click`) and the list of calls issued on the virtual-pointer
proxy, in issue order. -/
def State.update_and_handle_mouse_state (s : State) :
    State × MouseState × List SinkEvent :=
  let state := MouseState.default
  if META_KEY ∉ s.active_keys then (s, state, []) else
  -- Update movement
  let state := if MOVE_LEFT ∈ s.active_keys then
    { state with dx := state.dx - MOUSE_SPEED } else state
  let state := if MOVE_RIGHT ∈ s.active_keys then
    { state with dx := state.dx + MOUSE_SPEED } else state
  let state := if MOVE_UP ∈ s.active_keys then
    { state with dy := state.dy - MOUSE_SPEED } else state
  let state := if MOVE_DOWN ∈ s.active_keys then
    { state with dy := state.dy + MOUSE_SPEED } else state
  -- Update absolute position: state.x += state.dx; state.y += state.dy
  let state := { state with x := state.x + state.dx, y := state.y + state.dy }
  -- Clamp coordinates to screen bounds: x.max(0.0).min(1920.0), y.max(0.0).min(1080.0)
  let state := { state with x := min (max state.x 0) 1920,
                            y := min (max state.y 0) 1080 }
  -- Update button states
  let state := { state with
    left_click := decide (MOUSE_LEFT ∈ s.active_keys),
    right_click := decide (MOUSE_RIGHT ∈ s.active_keys) }
  -- Handle the movement (motion_absolute + frame when dx != 0.0 || dy != 0.0)
  let motionEvents :=
    match s.virtual_pointer with
    | some _ =>
      if state.dx ≠ 0 ∨ state.dy ≠ 0 then
        [SinkEvent.motionAbsolute 0 (f64_as_u32 (state.x * 65535 / 1920))
          (f64_as_u32 (state.y * 65535 / 1080)) 65535 65535,
         SinkEvent.frame]
      else []
    | none => []
  -- Handle button state changes (prev_* updated only inside the Some branch)
  let buttonStep :=
    match s.virtual_pointer with
    | some _ =>
      let stepL :=
        if state.left_click ≠ s.prev_left_click then
          ({ s with prev_left_click := state.left_click },
           [SinkEvent.button 0 BTN_LEFT state.left_click, SinkEvent.frame])
        else (s, ([] : List SinkEvent))
      let stepR :=
        if state.right_click ≠ stepL.1.prev_right_click then
          ({ stepL.1 with prev_right_click := state.right_click },
           stepL.2 ++ [SinkEvent.button 0 BTN_RIGHT state.right_click, SinkEvent.frame])
        else stepL
      stepR
    | none => (s, [])
  (buttonStep.1, state, motionEvents ++ buttonStep.2)

/-- One iteration of the main loop's translation step with a given key set:
`process_input_events` leaves `active_keys` equal to the currently-held set,
then `update_and_handle_mouse_state` runs (src/main.rs lines 250-255). -/
def State.tickWith (s : State) (ks : Finset ℕ) :
    State × MouseState × List SinkEvent :=
  ({ s with active_keys := ks }).update_and_handle_mouse_state

/-- Iterate `tickWith` over a list of per-tick key sets, collecting the list
of sink calls issued by each tick. -/
def State.runTicks (s : State) : List (Finset ℕ) → State × List (List SinkEvent)
  | [] => (s, [])
  | ks :: rest =>
    let r := s.tickWith ks
    let t := r.1.runTicks rest
    (t.1, r.2.2 :: t.2)

/-! ## Wayland dispatch handlers -/

/-- A server-sent event reaching the `Dispatch` impls of `State`:
a `wl_seat::Event::Capabilities` (with `valid` mirroring `into_result().is_ok()`
and `hasPointer` mirroring `caps.contains(Capability::Pointer)`), a
`wl_registry::Event::Global` carrying an interface name, or any of the events
the remaining impls ignore. -/
inductive WlEvent where
  | seatCapabilities (valid : Bool) (hasPointer : Bool)
  | registryGlobal (interfaceName : String)
  | other
deriving DecidableEq

/-- The `Dispatch` impls for `State` (src/main.rs lines 149-209).  `fresh` is
the identity tag of the proxy object a `bind` / `create_virtual_pointer` call
would return at this step. -/
def State.dispatch (s : State) (fresh : ℕ) (e : WlEvent) : State :=
  match e with
  | .seatCapabilities valid hasPointer =>
    if valid ∧ hasPointer ∧ s.virtual_pointer.isNone ∧ s.pointer_manager.isSome then
      { s with virtual_pointer := some fresh }
    else s
  | .registryGlobal interfaceName =>
    if interfaceName = "zwlr_virtual_pointer_manager_v1" then
      { s with pointer_manager := some fresh }
    else s
  | .other => s

/-- Run a sequence of dispatched events, each with its fresh proxy tag. -/
def State.runDispatch (s : State) : List (ℕ × WlEvent) → State
  | [] => s
  | (f, e) :: rest => (s.dispatch f e).runDispatch rest

/-- Number of steps of an event sequence at which a virtual pointer gets
created (the `virtual_pointer` field changes). -/
def creationCount (s : State) : List (ℕ × WlEvent) → ℕ
  | [] => 0
  | (f, e) :: rest =>
    (if (s.dispatch f e).virtual_pointer ≠ s.virtual_pointer then 1 else 0) +
      creationCount (s.dispatch f e) rest

/-! ## Event classification helpers -/

def isMotion : SinkEvent → Bool
  | .motionAbsolute _ _ _ _ _ => true
  | _ => false

def isLeftButton : SinkEvent → Bool
  | .button _ code _ => code == BTN_LEFT
  | _ => false

/-- The left-button calls among a tick's sink calls. -/
def leftButtonEvents (l : List SinkEvent) : List SinkEvent := l.filter isLeftButton

/-- Whether a tick's sink calls include an absolute-motion call. -/
def hasMotion (l : List SinkEvent) : Bool := l.any isMotion

/-- Velocity on the x axis derived from a key set, as accumulated by the two
`dx` updates of the tick function. -/
def dxOf (ks : Finset ℕ) : ℚ :=
  (if MOVE_LEFT ∈ ks then -MOUSE_SPEED else 0) +
    (if MOVE_RIGHT ∈ ks then MOUSE_SPEED else 0)

/-- Velocity on the y axis derived from a key set. -/
def dyOf (ks : Finset ℕ) : ℚ :=
  (if MOVE_UP ∈ ks then -MOUSE_SPEED else 0) +
    (if MOVE_DOWN ∈ ks then MOUSE_SPEED else 0)

/-! ## Characterization lemmas for the tick function -/

/-- Gate check: without the meta key the tick is the identity. -/
lemma tick_gate (s : State) (h : META_KEY ∉ s.active_keys) :
    s.update_and_handle_mouse_state = (s, MouseState.default, []) := by
  simp [State.update_and_handle_mouse_state, h]

/-- With the meta key held, the returned `MouseState` in closed form. -/
lemma tick_mouse (s : State) (hM : META_KEY ∈ s.active_keys) :
    (s.update_and_handle_mouse_state).2.1 =
      { dx := dxOf s.active_keys, dy := dyOf s.active_keys,
        left_click := decide (MOUSE_LEFT ∈ s.active_keys),
        right_click := decide (MOUSE_RIGHT ∈ s.active_keys),
        x := min (max (dxOf s.active_keys) 0) 1920,
        y := min (max (dyOf s.active_keys) 0) 1080 } := by
  by_cases hL : MOVE_LEFT ∈ s.active_keys <;>
  by_cases hR : MOVE_RIGHT ∈ s.active_keys <;>
  by_cases hU : MOVE_UP ∈ s.active_keys <;>
  by_cases hD : MOVE_DOWN ∈ s.active_keys <;>
    simp [State.update_and_handle_mouse_state, MouseState.default,
      dxOf, dyOf, hM, hL, hR, hU, hD]

/-- With the meta key held, the updated persistent state in closed form: with
a virtual pointer present the previous-click fields end up equal to the
current intents, and without one they are untouched. -/
lemma tick_state (s : State) (hM : META_KEY ∈ s.active_keys) :
    (s.update_and_handle_mouse_state).1 =
      match s.virtual_pointer with
      | some _ =>
        { s with prev_left_click := decide (MOUSE_LEFT ∈ s.active_keys),
                 prev_right_click := decide (MOUSE_RIGHT ∈ s.active_keys) }
      | none => s := by
  cases hvp : s.virtual_pointer <;>
  by_cases hl : decide (MOUSE_LEFT ∈ s.active_keys) = s.prev_left_click <;>
  by_cases hr : decide (MOUSE_RIGHT ∈ s.active_keys) = s.prev_right_click <;>
    simp [State.update_and_handle_mouse_state, hM, hvp, hl, hr] <;>
    first
      | rfl
      | (cases s; simp_all)

/-- The tick function never touches `virtual_pointer`, `pointer_manager` or
`active_keys`. -/
lemma tick_fields (s : State) :
    (s.update_and_handle_mouse_state).1.virtual_pointer = s.virtual_pointer ∧
    (s.update_and_handle_mouse_state).1.pointer_manager = s.pointer_manager ∧
    (s.update_and_handle_mouse_state).1.active_keys = s.active_keys := by
  by_cases hM : META_KEY ∈ s.active_keys
  · cases hvp : s.virtual_pointer <;>
    by_cases hl : decide (MOUSE_LEFT ∈ s.active_keys) = s.prev_left_click <;>
    by_cases hr : decide (MOUSE_RIGHT ∈ s.active_keys) = s.prev_right_click <;>
      simp [State.update_and_handle_mouse_state, hM, hvp, hl, hr]
  · simp [tick_gate s hM]

set_option maxHeartbeats 1600000 in
/-- With the meta key held, the list of sink calls in closed form. -/
lemma tick_events (s : State) (hM : META_KEY ∈ s.active_keys) :
    (s.update_and_handle_mouse_state).2.2 =
      (if s.virtual_pointer.isSome ∧
          (dxOf s.active_keys ≠ 0 ∨ dyOf s.active_keys ≠ 0) then
        [SinkEvent.motionAbsolute 0
          (f64_as_u32 (min (max (dxOf s.active_keys) 0) 1920 * 65535 / 1920))
          (f64_as_u32 (min (max (dyOf s.active_keys) 0) 1080 * 65535 / 1080))
          65535 65535,
         SinkEvent.frame] else []) ++
      (if s.virtual_pointer.isSome ∧
          decide (MOUSE_LEFT ∈ s.active_keys) ≠ s.prev_left_click then
        [SinkEvent.button 0 BTN_LEFT (decide (MOUSE_LEFT ∈ s.active_keys)),
         SinkEvent.frame] else []) ++
      (if s.virtual_pointer.isSome ∧
          decide (MOUSE_RIGHT ∈ s.active_keys) ≠ s.prev_right_click then
        [SinkEvent.button 0 BTN_RIGHT (decide (MOUSE_RIGHT ∈ s.active_keys)),
         SinkEvent.frame] else []) := by
  obtain ⟨pm, vp, ks, pl, pr⟩ := s
  simp only [State.active_keys] at hM ⊢
  cases vp with
  | none =>
    simp [State.update_and_handle_mouse_state, hM]
  | some v =>
    by_cases hL : MOVE_LEFT ∈ ks <;>
    by_cases hR : MOVE_RIGHT ∈ ks <;>
    by_cases hU : MOVE_UP ∈ ks <;>
    by_cases hD : MOVE_DOWN ∈ ks <;>
    by_cases hl : decide (MOUSE_LEFT ∈ ks) = pl <;>
    by_cases hr : decide (MOUSE_RIGHT ∈ ks) = pr <;>
      simp [State.update_and_handle_mouse_state, MouseState.default, dxOf, dyOf,
        MOUSE_SPEED, hM, hL, hR, hU, hD, hl, hr]

/-- Left-button calls of a tick, in closed form. -/
lemma tick_leftEvents (s : State) (hM : META_KEY ∈ s.active_keys) :
    leftButtonEvents (s.update_and_handle_mouse_state).2.2 =
      if s.virtual_pointer.isSome ∧
          decide (MOUSE_LEFT ∈ s.active_keys) ≠ s.prev_left_click
      then [SinkEvent.button 0 BTN_LEFT (decide (MOUSE_LEFT ∈ s.active_keys))]
      else [] := by
  rw [tick_events s hM]
  split_ifs with h1 h2 h3 <;>
    simp_all [leftButtonEvents, List.filter_append, List.filter, isLeftButton,
      BTN_LEFT, BTN_RIGHT]

/-- Motion calls of a tick, in closed form. -/
lemma tick_motionFilter (s : State) (hM : META_KEY ∈ s.active_keys) :
    (s.update_and_handle_mouse_state).2.2.filter isMotion =
      if s.virtual_pointer.isSome ∧
          (dxOf s.active_keys ≠ 0 ∨ dyOf s.active_keys ≠ 0) then
        [SinkEvent.motionAbsolute 0
          (f64_as_u32 (min (max (dxOf s.active_keys) 0) 1920 * 65535 / 1920))
          (f64_as_u32 (min (max (dyOf s.active_keys) 0) 1080 * 65535 / 1080))
          65535 65535] else [] := by
  rw [tick_events s hM]
  split_ifs with h1 h2 h3 <;>
    simp_all [List.filter_append, List.filter, isMotion]

/-- On arguments that the clamped coordinates produce, the `as u32` cast is
plain truncation: no saturation happens below `65535`. -/
lemma f64_as_u32_eq_floor (q : ℚ) (h0 : 0 ≤ q) (h1 : q ≤ 65535) :
    f64_as_u32 q = Int.toNat ⌊q⌋ := by
  unfold f64_as_u32
  rcases eq_or_lt_of_le h0 with h | h
  · simp [← h]
  · rw [if_neg (not_le.mpr h)]
    have hfl : ⌊q⌋ ≤ 65535 := by
      have := Int.floor_le_floor h1
      simpa using this
    have : Int.toNat ⌊q⌋ ≤ 4294967295 := by omega
    exact min_eq_left this

/-- The clamp `min (max v 0) top` stays inside `[0, top]`. -/
lemma clamp_mem (v top : ℚ) (h : 0 ≤ top) :
    0 ≤ min (max v 0) top ∧ min (max v 0) top ≤ top :=
  ⟨le_min (le_max_right _ _) h, min_le_right _ _⟩

/-- Single loop iteration with key set `ks`: `virtual_pointer` is preserved. -/
lemma tickWith_vp (s : State) (ks : Finset ℕ) :
    (s.tickWith ks).1.virtual_pointer = s.virtual_pointer :=
  (tick_fields { s with active_keys := ks }).1

/-- Single loop iteration with key set `ks` containing the meta key and the
virtual pointer bound: `prev_left_click` becomes the current left intent. -/
lemma tickWith_prevLeft (s : State) (ks : Finset ℕ) (hM : META_KEY ∈ ks)
    (v : ℕ) (hvp : s.virtual_pointer = some v) :
    (s.tickWith ks).1.prev_left_click = decide (MOUSE_LEFT ∈ ks) := by
  unfold State.tickWith
  rw [tick_state _ (by simpa using hM)]
  simp [hvp]

/-- Single loop iteration: left-button calls in closed form. -/
lemma tickWith_leftEvents (s : State) (ks : Finset ℕ) (hM : META_KEY ∈ ks) :
    leftButtonEvents (s.tickWith ks).2.2 =
      if s.virtual_pointer.isSome ∧
          decide (MOUSE_LEFT ∈ ks) ≠ s.prev_left_click
      then [SinkEvent.button 0 BTN_LEFT (decide (MOUSE_LEFT ∈ ks))]
      else [] := by
  unfold State.tickWith
  rw [tick_leftEvents _ (by simpa using hM)]

/-- Compute the `as u32` cast at a concrete positive rational from floor bounds. -/
lemma f64_as_u32_eq (q : ℚ) (n : ℕ) (h0 : 0 < q) (h1 : (n : ℚ) ≤ q)
    (h2 : q < n + 1) (hn : n ≤ 4294967295) : f64_as_u32 q = n := by
  unfold f64_as_u32
  rw [if_neg (not_le.mpr h0)]
  have hf : ⌊q⌋ = (n : ℤ) := by
    rw [Int.floor_eq_iff]
    constructor
    · exact_mod_cast h1
    · push_cast
      exact h2
  rw [hf]
  simp [hn]

/-! ## C5 -/

/-- C5: Gate check: for every key set not containing the Modifier key, the
tick returns the persistent state unchanged (in particular
`prev_left_click` / `prev_right_click` keep their values), the returned
`MouseState` is the default one, and no sink call is made, whatever other
keys are in the set. -/
theorem C5_gate_check (s : State) (h : META_KEY ∉ s.active_keys) :
    s.update_and_handle_mouse_state = (s, MouseState.default, []) :=
  tick_gate s h

def s_c5 : State :=
  { pointer_manager := none, virtual_pointer := some 0,
    active_keys := {105, 106, 97}, prev_left_click := true,
    prev_right_click := false }

/-- Witness for C5 at a key set holding movement and button keys but not the
Modifier. -/
theorem C5_gate_check_witness :
    s_c5.update_and_handle_mouse_state = (s_c5, MouseState.default, []) :=
  C5_gate_check s_c5 (by decide)

/-! ## C7 -/

/-- C7: Cancellation: in any tick with the Modifier held, if MoveLeft and
MoveRight are both held then the derived dx is exactly 0, and if MoveUp and
MoveDown are both held then the derived dy is exactly 0. -/
theorem C7_cancellation (s : State) (hM : META_KEY ∈ s.active_keys) :
    ((MOVE_LEFT ∈ s.active_keys ∧ MOVE_RIGHT ∈ s.active_keys) →
      (s.update_and_handle_mouse_state).2.1.dx = 0) ∧
    ((MOVE_UP ∈ s.active_keys ∧ MOVE_DOWN ∈ s.active_keys) →
      (s.update_and_handle_mouse_state).2.1.dy = 0) := by
  rw [tick_mouse s hM]
  refine ⟨fun h => ?_, fun h => ?_⟩
  · simp [dxOf, h.1, h.2]
  · simp [dyOf, h.1, h.2]

def s_c7 : State :=
  { pointer_manager := none, virtual_pointer := some 0,
    active_keys := {125, 105, 106, 103, 108}, prev_left_click := false,
    prev_right_click := false }

/-- Witness for C7 with all four directional keys held. -/
theorem C7_cancellation_witness :
    (s_c7.update_and_handle_mouse_state).2.1.dx = 0 ∧
    (s_c7.update_and_handle_mouse_state).2.1.dy = 0 :=
  ⟨(C7_cancellation s_c7 (by decide)).1 ⟨by decide, by decide⟩,
   (C7_cancellation s_c7 (by decide)).2 ⟨by decide, by decide⟩⟩

/-! ## C2 -/

def s_c2 : State :=
  { pointer_manager := some 0, virtual_pointer := none,
    active_keys := {125, 97}, prev_left_click := false,
    prev_right_click := false }

/-- C2 is refuted: on a Modifier tick with ButtonLeftKey held but the
virtual-pointer handle absent, `prev_left_click` stays `false` instead of
being updated to the intent `true` — the update happens only inside the
`if let Some(virtual_pointer)` block. -/
theorem C2_counterexample :
    META_KEY ∈ s_c2.active_keys ∧ MOUSE_LEFT ∈ s_c2.active_keys ∧
    (s_c2.update_and_handle_mouse_state).1.prev_left_click = false := by
  decide

/-- C2 (amended): on every Modifier tick with the virtual-pointer handle
present, `prev_left_click` / `prev_right_click` end up equal to the current
button intents, whether or not a transition was emitted; when the handle is
absent they keep their previous values. -/
theorem C2_amended (s : State) (hM : META_KEY ∈ s.active_keys) :
    (s.virtual_pointer.isSome →
      ((s.update_and_handle_mouse_state).1.prev_left_click
          = decide (MOUSE_LEFT ∈ s.active_keys) ∧
        (s.update_and_handle_mouse_state).1.prev_right_click
          = decide (MOUSE_RIGHT ∈ s.active_keys))) ∧
    (s.virtual_pointer = none →
      ((s.update_and_handle_mouse_state).1.prev_left_click
          = s.prev_left_click ∧
        (s.update_and_handle_mouse_state).1.prev_right_click
          = s.prev_right_click)) := by
  rw [tick_state s hM]
  cases hvp : s.virtual_pointer <;> simp [hvp]

def s_c2w : State :=
  { pointer_manager := some 0, virtual_pointer := some 1,
    active_keys := {125, 97}, prev_left_click := false,
    prev_right_click := false }

/-- Witness for the amended C2 with the handle present. -/
theorem C2_amended_witness :
    (s_c2w.update_and_handle_mouse_state).1.prev_left_click
        = decide (MOUSE_LEFT ∈ s_c2w.active_keys) ∧
    (s_c2w.update_and_handle_mouse_state).1.prev_right_click
        = decide (MOUSE_RIGHT ∈ s_c2w.active_keys) :=
  (C2_amended s_c2w (by decide)).1 (by decide)

/-! ## C8 -/

def s_c8 : State :=
  { pointer_manager := some 0, virtual_pointer := none,
    active_keys := {125, 106}, prev_left_click := false,
    prev_right_click := false }

/-- C8 is refuted as an iff: with {Modifier, MoveRight} held but no
virtual-pointer handle, the derived velocity is nonzero yet no motion event
is emitted. -/
theorem C8_counterexample :
    (s_c8.update_and_handle_mouse_state).2.1.dx ≠ 0 ∧
    hasMotion (s_c8.update_and_handle_mouse_state).2.2 = false := by
  constructor
  · rw [tick_mouse s_c8 (by decide)]
    simp [dxOf, s_c8, MOVE_LEFT, MOVE_RIGHT, MOUSE_SPEED]
  · rw [tick_events s_c8 (by decide)]
    simp [s_c8, hasMotion]

/-- C8 (amended): a motion event is emitted in a tick iff the virtual-pointer
handle is present and the tick's derived velocity (dx, dy) is nonzero; in
particular a Modifier hold with no directional key emits no motion, and with
no handle nothing is emitted even when the velocity is nonzero. -/
theorem C8_amended (s : State) :
    hasMotion (s.update_and_handle_mouse_state).2.2 =
      (s.virtual_pointer.isSome &&
        (decide ((s.update_and_handle_mouse_state).2.1.dx ≠ 0) ||
          decide ((s.update_and_handle_mouse_state).2.1.dy ≠ 0))) := by
  by_cases hM : META_KEY ∈ s.active_keys
  · rw [tick_events s hM, tick_mouse s hM]
    split_ifs with h1 h2 h3 <;>
      simp_all [hasMotion, isMotion, not_or]
  · rw [tick_gate s hM]
    simp [hasMotion, MouseState.default]

/-! ## C1 -/

def s_c1 : State :=
  { pointer_manager := some 0, virtual_pointer := some 1,
    active_keys := {125, 106}, prev_left_click := false,
    prev_right_click := false }

lemma dx_c1 : dxOf s_c1.active_keys = 10 := by
  simp [dxOf, s_c1, MOVE_LEFT, MOVE_RIGHT, MOUSE_SPEED]

lemma dy_c1 : dyOf s_c1.active_keys = 0 := by
  simp [dyOf, s_c1, MOVE_UP, MOVE_DOWN, MOUSE_SPEED]

lemma s_c1_mouse :
    (s_c1.update_and_handle_mouse_state).2.1 =
      { dx := 10, dy := 0, left_click := false, right_click := false,
        x := 10, y := 0 } := by
  rw [tick_mouse s_c1 (by decide), dx_c1, dy_c1]
  have h97 : decide (MOUSE_LEFT ∈ s_c1.active_keys) = false := by decide
  have h96 : decide (MOUSE_RIGHT ∈ s_c1.active_keys) = false := by decide
  rw [h97, h96]
  norm_num [MouseState.mk.injEq]

lemma s_c1_events :
    (s_c1.update_and_handle_mouse_state).2.2 =
      [SinkEvent.motionAbsolute 0 341 0 65535 65535, SinkEvent.frame] := by
  rw [tick_events s_c1 (by decide), dx_c1, dy_c1]
  have hx : f64_as_u32 (min (max (10 : ℚ) 0) 1920 * 65535 / 1920) = 341 := by
    rw [show min (max (10 : ℚ) 0) 1920 = 10 by norm_num]
    exact f64_as_u32_eq _ 341 (by norm_num) (by norm_num) (by norm_num)
      (by norm_num)
  have hy : f64_as_u32 (min (max (0 : ℚ) 0) 1080 * 65535 / 1080) = 0 := by
    rw [show min (max (0 : ℚ) 0) 1080 = 0 by norm_num]
    norm_num [f64_as_u32]
  have h97 : decide (MOUSE_LEFT ∈ s_c1.active_keys) = false := by decide
  have h96 : decide (MOUSE_RIGHT ∈ s_c1.active_keys) = false := by decide
  rw [hx, hy, h97, h96]
  norm_num [s_c1]

/-- C1 (code bug): the position does not persist across ticks.  Each tick
rebuilds it from `MouseState::default()` — i.e. from (0,0) — so with
{Modifier, MoveRight} held the tick yields position (10, 0) whatever came
before, a second identical tick again yields x = 10 rather than 20, and the
emitted motion is ⌊10·65535/1920⌋ = 341; no tick maps position (100, 200) to
(110, 200) as the claim (and the code's own "Update absolute position"
comment) requires. -/
theorem C1_code_bug :
    (s_c1.update_and_handle_mouse_state).2.1.x = 10 ∧
    (s_c1.update_and_handle_mouse_state).2.1.y = 0 ∧
    (s_c1.update_and_handle_mouse_state).2.2 =
      [SinkEvent.motionAbsolute 0 341 0 65535 65535, SinkEvent.frame] ∧
    ((s_c1.update_and_handle_mouse_state).1.tickWith {125, 106}).2.1.x = 10 := by
  have hstate : (s_c1.update_and_handle_mouse_state).1 = s_c1 := by decide
  have hsame : s_c1.tickWith {125, 106} = s_c1.update_and_handle_mouse_state :=
    rfl
  refine ⟨by rw [s_c1_mouse], by rw [s_c1_mouse], s_c1_events, ?_⟩
  rw [hstate, hsame, s_c1_mouse]

/-! ## C3 -/

def s_c3 : State :=
  { pointer_manager := some 0, virtual_pointer := some 1,
    active_keys := {125, 106, 108}, prev_left_click := false,
    prev_right_click := false }

lemma dx_c3 : dxOf s_c3.active_keys = 10 := by
  simp [dxOf, s_c3, MOVE_LEFT, MOVE_RIGHT, MOUSE_SPEED]

lemma dy_c3 : dyOf s_c3.active_keys = 10 := by
  simp [dyOf, s_c3, MOVE_UP, MOVE_DOWN, MOUSE_SPEED]

lemma s_c3_mouse :
    (s_c3.update_and_handle_mouse_state).2.1 =
      { dx := 10, dy := 10, left_click := false, right_click := false,
        x := 10, y := 10 } := by
  rw [tick_mouse s_c3 (by decide), dx_c3, dy_c3]
  have h97 : decide (MOUSE_LEFT ∈ s_c3.active_keys) = false := by decide
  have h96 : decide (MOUSE_RIGHT ∈ s_c3.active_keys) = false := by decide
  rw [h97, h96]
  norm_num [MouseState.mk.injEq]

/-- C3 (code bug): starting "at (1920, 1080)" is not possible — the tick
rebuilds the position from (0,0), so with Modifier+MoveRight+MoveDown held
every tick (first and subsequent) computes position (10, 10), not
(1920, 1080).  (The per-axis saturating clamp `min (max · 0) 1920/1080` is
present in the code, but it operates on this reset position.) -/
theorem C3_code_bug :
    (s_c3.update_and_handle_mouse_state).2.1.x = 10 ∧
    (s_c3.update_and_handle_mouse_state).2.1.y = 10 ∧
    ((s_c3.update_and_handle_mouse_state).1.tickWith {125, 106, 108}).2.1.x = 10 ∧
    ((s_c3.update_and_handle_mouse_state).1.tickWith {125, 106, 108}).2.1.y = 10 := by
  have hstate : (s_c3.update_and_handle_mouse_state).1 = s_c3 := by decide
  have hsame :
      s_c3.tickWith {125, 106, 108} = s_c3.update_and_handle_mouse_state := rfl
  refine ⟨by rw [s_c3_mouse], by rw [s_c3_mouse], ?_, ?_⟩ <;>
    rw [hstate, hsame, s_c3_mouse]

/-! ## C4 -/

def s_c4 : State :=
  { pointer_manager := some 0, virtual_pointer := some 1,
    active_keys := {125, 108}, prev_left_click := false,
    prev_right_click := false }

lemma dx_c4 : dxOf s_c4.active_keys = 0 := by
  simp [dxOf, s_c4, MOVE_LEFT, MOVE_RIGHT, MOUSE_SPEED]

lemma dy_c4 : dyOf s_c4.active_keys = 10 := by
  simp [dyOf, s_c4, MOVE_UP, MOVE_DOWN, MOUSE_SPEED]

lemma s_c4_mouse :
    (s_c4.update_and_handle_mouse_state).2.1 =
      { dx := 0, dy := 10, left_click := false, right_click := false,
        x := 0, y := 10 } := by
  rw [tick_mouse s_c4 (by decide), dx_c4, dy_c4]
  have h97 : decide (MOUSE_LEFT ∈ s_c4.active_keys) = false := by decide
  have h96 : decide (MOUSE_RIGHT ∈ s_c4.active_keys) = false := by decide
  rw [h97, h96]
  norm_num [MouseState.mk.injEq]

lemma s_c4_events :
    (s_c4.update_and_handle_mouse_state).2.2 =
      [SinkEvent.motionAbsolute 0 0 606 65535 65535, SinkEvent.frame] := by
  rw [tick_events s_c4 (by decide), dx_c4, dy_c4]
  have hx : f64_as_u32 (min (max (0 : ℚ) 0) 1920 * 65535 / 1920) = 0 := by
    rw [show min (max (0 : ℚ) 0) 1920 = 0 by norm_num]
    norm_num [f64_as_u32]
  have hy : f64_as_u32 (min (max (10 : ℚ) 0) 1080 * 65535 / 1080) = 606 := by
    rw [show min (max (10 : ℚ) 0) 1080 = 10 by norm_num]
    exact f64_as_u32_eq _ 606 (by norm_num) (by norm_num) (by norm_num)
      (by norm_num)
  have h97 : decide (MOUSE_LEFT ∈ s_c4.active_keys) = false := by decide
  have h96 : decide (MOUSE_RIGHT ∈ s_c4.active_keys) = false := by decide
  rw [hx, hy, h97, h96]
  norm_num [s_c4]

/-- C4 is refuted: with {Modifier, MoveDown} held the clamped position is
(0, 10) and the code sends y = 606 — the truncation of 10·65535/1080 — while
nearest-integer rounding of the same quantity is 607. -/
theorem C4_counterexample :
    (s_c4.update_and_handle_mouse_state).2.1.y = 10 ∧
    (s_c4.update_and_handle_mouse_state).2.2 =
      [SinkEvent.motionAbsolute 0 0 606 65535 65535, SinkEvent.frame] ∧
    round ((s_c4.update_and_handle_mouse_state).2.1.y * 65535 / 1080) = 607 := by
  refine ⟨by rw [s_c4_mouse], s_c4_events, ?_⟩
  rw [s_c4_mouse]
  show round ((10 : ℚ) * 65535 / 1080) = 607
  rw [round_eq]
  have h : ⌊(10 : ℚ) * 65535 / 1080 + 1 / 2⌋ = (607 : ℤ) := by
    rw [Int.floor_eq_iff]
    constructor <;> norm_num
  simpa using h

/-- C4 (amended): every emitted motion event carries the truncation toward
zero (the floor, the position being nonnegative) of x·65535/1920 and
y·65535/1080 of the clamped position — not the nearest-integer rounding. -/
theorem C4_amended (s : State) (e : SinkEvent)
    (he : e ∈ (s.update_and_handle_mouse_state).2.2)
    (hm : isMotion e = true) :
    e = SinkEvent.motionAbsolute 0
      (Int.toNat ⌊(s.update_and_handle_mouse_state).2.1.x * 65535 / 1920⌋)
      (Int.toNat ⌊(s.update_and_handle_mouse_state).2.1.y * 65535 / 1080⌋)
      65535 65535 := by
  by_cases hM : META_KEY ∈ s.active_keys
  · have hmem : e ∈ (s.update_and_handle_mouse_state).2.2.filter isMotion :=
      List.mem_filter.mpr ⟨he, hm⟩
    rw [tick_motionFilter s hM] at hmem
    by_cases hc : s.virtual_pointer.isSome ∧
        (dxOf s.active_keys ≠ 0 ∨ dyOf s.active_keys ≠ 0)
    · rw [if_pos hc] at hmem
      obtain ⟨hx0, hx1⟩ := clamp_mem (dxOf s.active_keys) 1920 (by norm_num)
      obtain ⟨hy0, hy1⟩ := clamp_mem (dyOf s.active_keys) 1080 (by norm_num)
      have hqx : f64_as_u32 (min (max (dxOf s.active_keys) 0) 1920 * 65535 / 1920)
          = Int.toNat ⌊min (max (dxOf s.active_keys) 0) 1920 * 65535 / 1920⌋ := by
        refine f64_as_u32_eq_floor _ ?_ ?_
        · positivity
        · rw [div_le_iff₀ (by norm_num : (0 : ℚ) < 1920)]
          nlinarith [hx1]
      have hqy : f64_as_u32 (min (max (dyOf s.active_keys) 0) 1080 * 65535 / 1080)
          = Int.toNat ⌊min (max (dyOf s.active_keys) 0) 1080 * 65535 / 1080⌋ := by
        refine f64_as_u32_eq_floor _ ?_ ?_
        · positivity
        · rw [div_le_iff₀ (by norm_num : (0 : ℚ) < 1080)]
          nlinarith [hy1]
      rw [List.mem_singleton.mp hmem, tick_mouse s hM, hqx, hqy]
    · rw [if_neg hc] at hmem
      exact absurd hmem (List.not_mem_nil e)
  · rw [tick_gate s hM] at he
    exact absurd he (List.not_mem_nil e)

/-- Witness for the amended C4 at the motion event of `s_c4`'s tick. -/
theorem C4_amended_witness :
    SinkEvent.motionAbsolute 0 0 606 65535 65535 =
      SinkEvent.motionAbsolute 0
        (Int.toNat ⌊(s_c4.update_and_handle_mouse_state).2.1.x * 65535 / 1920⌋)
        (Int.toNat ⌊(s_c4.update_and_handle_mouse_state).2.1.y * 65535 / 1080⌋)
        65535 65535 :=
  C4_amended s_c4 _ (by rw [s_c4_events]; exact List.mem_cons_self _ _) rfl

/-! ## C6 -/

/-- Hold-then-release phase: with the pointer bound and the left button
already recorded as pressed, every further hold tick emits no left-button
call and the final release tick emits exactly one release. -/
lemma hold_release_phase (v : ℕ) (ksRel : Finset ℕ) (hrM : META_KEY ∈ ksRel)
    (hrL : MOUSE_LEFT ∉ ksRel) :
    ∀ (rest : List (Finset ℕ)) (s : State),
      s.virtual_pointer = some v → s.prev_left_click = true →
      (∀ ks ∈ rest, META_KEY ∈ ks ∧ MOUSE_LEFT ∈ ks) →
      (s.runTicks (rest ++ [ksRel])).2.map leftButtonEvents =
        List.replicate rest.length [] ++ [[SinkEvent.button 0 BTN_LEFT false]] := by
  intro rest
  induction rest with
  | nil =>
    intro s hvp hpl _
    have h1 : leftButtonEvents (s.tickWith ksRel).2.2 =
        [SinkEvent.button 0 BTN_LEFT false] := by
      rw [tickWith_leftEvents s ksRel hrM]
      simp [hvp, hpl, hrL]
    simp [State.runTicks, h1]
  | cons k rest ih =>
    intro s hvp hpl hall
    obtain ⟨hkM, hkL⟩ := hall k (by simp)
    have h1 : leftButtonEvents (s.tickWith k).2.2 = [] := by
      rw [tickWith_leftEvents s k hkM]
      simp [hvp, hkL, hpl]
    have h2 : (s.tickWith k).1.virtual_pointer = some v := by
      rw [tickWith_vp]; exact hvp
    have h3 : (s.tickWith k).1.prev_left_click = true := by
      rw [tickWith_prevLeft s k hkM v hvp]
      simp [hkL]
    have h4 := ih ((s.tickWith k).1) h2 h3 (fun ks hk => hall ks (by simp [hk]))
    simp [State.runTicks, h1, h4, List.replicate_succ]

/-- C6: button edge-triggering.  With the virtual pointer bound, the left
button not previously pressed, and the Modifier held throughout: holding
ButtonLeftKey for 1 + kss.length consecutive ticks and then releasing it
(Modifier still held) produces exactly one press call on the first tick,
none on the intermediate ticks, and exactly one release call on the final
tick. -/
theorem C6_button_edge (s : State) (v : ℕ) (k0 : Finset ℕ)
    (kss : List (Finset ℕ)) (ksRel : Finset ℕ)
    (hvp : s.virtual_pointer = some v) (hprev : s.prev_left_click = false)
    (h0M : META_KEY ∈ k0) (h0L : MOUSE_LEFT ∈ k0)
    (hhold : ∀ ks ∈ kss, META_KEY ∈ ks ∧ MOUSE_LEFT ∈ ks)
    (hrM : META_KEY ∈ ksRel) (hrL : MOUSE_LEFT ∉ ksRel) :
    (s.runTicks ((k0 :: kss) ++ [ksRel])).2.map leftButtonEvents =
      [SinkEvent.button 0 BTN_LEFT true] ::
        (List.replicate kss.length [] ++
          [[SinkEvent.button 0 BTN_LEFT false]]) := by
  have h1 : leftButtonEvents (s.tickWith k0).2.2 =
      [SinkEvent.button 0 BTN_LEFT true] := by
    rw [tickWith_leftEvents s k0 h0M]
    simp [hvp, h0L, hprev]
  have h2 : (s.tickWith k0).1.virtual_pointer = some v := by
    rw [tickWith_vp]; exact hvp
  have h3 : (s.tickWith k0).1.prev_left_click = true := by
    rw [tickWith_prevLeft s k0 h0M v hvp]
    simp [h0L]
  have h4 := hold_release_phase v ksRel hrM hrL kss ((s.tickWith k0).1) h2 h3 hhold
  simp [State.runTicks, h1, h4]

def s_c6 : State :=
  { pointer_manager := none, virtual_pointer := some 1, active_keys := ∅,
    prev_left_click := false, prev_right_click := false }

/-- Witness for C6: hold {Modifier, ButtonLeftKey} for two ticks, then
{Modifier} alone. -/
theorem C6_button_edge_witness :
    (s_c6.runTicks ((({125, 97} : Finset ℕ) :: [({125, 97} : Finset ℕ)]) ++
        [({125} : Finset ℕ)])).2.map leftButtonEvents =
      [SinkEvent.button 0 BTN_LEFT true] ::
        (List.replicate [({125, 97} : Finset ℕ)].length [] ++
          [[SinkEvent.button 0 BTN_LEFT false]]) :=
  C6_button_edge s_c6 1 {125, 97} [{125, 97}] {125} rfl rfl (by decide)
    (by decide) (by decide) (by decide) (by decide)

/-! ## C10 -/

/-- Ticks whose key set lacks the meta key change nothing and emit nothing. -/
lemma metaFree_run :
    ∀ (kss : List (Finset ℕ)) (s : State),
      (∀ ks ∈ kss, META_KEY ∉ ks) →
      (s.runTicks kss).2 = List.replicate kss.length [] ∧
      (s.runTicks kss).1.prev_left_click = s.prev_left_click ∧
      (s.runTicks kss).1.virtual_pointer = s.virtual_pointer := by
  intro kss
  induction kss with
  | nil => intro s _; simp [State.runTicks]
  | cons k rest ih =>
    intro s hall
    have hg : s.tickWith k =
        ({ s with active_keys := k }, MouseState.default, []) :=
      tick_gate _ (by simpa using hall k (by simp))
    have hr := ih ({ s with active_keys := k }) (fun ks hk => hall ks (by simp [hk]))
    refine ⟨?_, ?_, ?_⟩ <;>
      simp [State.runTicks, hg, hr.1, hr.2.1, hr.2.2, List.replicate_succ]

/-- C10: if ButtonLeftKey is still held when the Modifier is released while
`prev_left_click = true`, then while the Modifier stays absent no sink call
at all (in particular no release transition) is emitted on any tick and
`prev_left_click` keeps its stale `true` value; the release is emitted —
exactly once — only on a later tick with the Modifier held and ButtonLeftKey
no longer held. -/
theorem C10_stale_button (s : State) (v : ℕ) (kss : List (Finset ℕ))
    (ksRec : Finset ℕ)
    (hvp : s.virtual_pointer = some v) (hprev : s.prev_left_click = true)
    (hnoM : ∀ ks ∈ kss, META_KEY ∉ ks)
    (hM : META_KEY ∈ ksRec) (hL : MOUSE_LEFT ∉ ksRec) :
    (s.runTicks kss).2 = List.replicate kss.length [] ∧
    (s.runTicks kss).1.prev_left_click = true ∧
    leftButtonEvents ((s.runTicks kss).1.tickWith ksRec).2.2 =
      [SinkEvent.button 0 BTN_LEFT false] := by
  obtain ⟨h1, h2, h3⟩ := metaFree_run kss s hnoM
  refine ⟨h1, h2.trans hprev, ?_⟩
  rw [tickWith_leftEvents _ ksRec hM, h2.trans hprev, h3.trans hvp]
  simp [hL]

def s_c10 : State :=
  { pointer_manager := none, virtual_pointer := some 1, active_keys := {97},
    prev_left_click := true, prev_right_click := false }

/-- Witness for C10: one Modifier-free tick with ButtonLeftKey still held,
then a recovery tick with {Modifier} alone. -/
theorem C10_stale_button_witness :
    (s_c10.runTicks [({97} : Finset ℕ)]).2 = List.replicate 1 [] ∧
    (s_c10.runTicks [({97} : Finset ℕ)]).1.prev_left_click = true ∧
    leftButtonEvents
        ((s_c10.runTicks [({97} : Finset ℕ)]).1.tickWith {125}).2.2 =
      [SinkEvent.button 0 BTN_LEFT false] :=
  C10_stale_button s_c10 1 [{97}] {125} rfl rfl (by decide) (by decide)
    (by decide)

/-! ## C9 -/

/-- Whether a dispatched event is a valid seat-capabilities announcement
that includes pointer capability. -/
def pointerCapsAnnounced : WlEvent → Bool
  | .seatCapabilities valid hasPointer => valid && hasPointer
  | _ => false

/-- `virtual_pointer` after one dispatched event, in closed form: it is set
(to the freshly created proxy) exactly when a valid pointer-capability
announcement arrives while the manager is bound and no virtual pointer
exists yet; otherwise it is untouched. -/
lemma dispatch_vp (s : State) (fresh : ℕ) (e : WlEvent) :
    (s.dispatch fresh e).virtual_pointer =
      if pointerCapsAnnounced e ∧ s.virtual_pointer.isNone ∧
          s.pointer_manager.isSome then some fresh
      else s.virtual_pointer := by
  cases e with
  | seatCapabilities valid hasPointer =>
    by_cases hv : valid = true <;> by_cases hp : hasPointer = true <;>
    by_cases hn : s.virtual_pointer.isNone = true <;>
    by_cases hm : s.pointer_manager.isSome = true <;>
      simp_all [State.dispatch, pointerCapsAnnounced]
  | registryGlobal iname =>
    by_cases hi : iname = "zwlr_virtual_pointer_manager_v1" <;>
      simp [State.dispatch, pointerCapsAnnounced, hi]
  | other => simp [State.dispatch, pointerCapsAnnounced]

/-- Once bound, the handle is kept unchanged by every later event. -/
lemma dispatch_keeps (s : State) (fresh : ℕ) (e : WlEvent) (v : ℕ)
    (hvp : s.virtual_pointer = some v) :
    (s.dispatch fresh e).virtual_pointer = some v := by
  rw [dispatch_vp]
  simp [hvp]

/-- No creation can happen once the handle is bound. -/
lemma creationCount_zero_of_some :
    ∀ (tr : List (ℕ × WlEvent)) (s : State) (v : ℕ),
      s.virtual_pointer = some v → creationCount s tr = 0 := by
  intro tr
  induction tr with
  | nil => intro s v _; rfl
  | cons p rest ih =>
    intro s v hvp
    obtain ⟨f, e⟩ := p
    have hk : (s.dispatch f e).virtual_pointer = some v :=
      dispatch_keeps s f e v hvp
    simp [creationCount, hk, hvp, ih _ v hk]

/-- At most one virtual pointer is ever created along any event trace. -/
lemma creationCount_le_one :
    ∀ (tr : List (ℕ × WlEvent)) (s : State), creationCount s tr ≤ 1 := by
  intro tr
  induction tr with
  | nil => intro s; simp [creationCount]
  | cons p rest ih =>
    intro s
    obtain ⟨f, e⟩ := p
    by_cases hch : (s.dispatch f e).virtual_pointer = s.virtual_pointer
    · simpa [creationCount, hch] using ih (s.dispatch f e)
    · have hv : (s.dispatch f e).virtual_pointer = some f := by
        rw [dispatch_vp] at hch ⊢
        by_cases hc : (pointerCapsAnnounced e ∧ s.virtual_pointer.isNone ∧
            s.pointer_manager.isSome : Prop)
        · rw [if_pos hc]
        · rw [if_neg hc] at hch
          exact absurd rfl hch
      have h0 := creationCount_zero_of_some rest _ f hv
      simp [creationCount, hch, h0]

/-- `pointer_manager` after one dispatched event: set exactly by a registry
announcement of the virtual-pointer-manager interface, otherwise untouched. -/
lemma dispatch_pm (s : State) (fresh : ℕ) (e : WlEvent) :
    (s.dispatch fresh e).pointer_manager =
      if e = WlEvent.registryGlobal "zwlr_virtual_pointer_manager_v1"
      then some fresh else s.pointer_manager := by
  cases e with
  | seatCapabilities valid hasPointer =>
    simp only [State.dispatch]
    split <;> simp
  | registryGlobal iname =>
    by_cases hi : iname = "zwlr_virtual_pointer_manager_v1" <;>
      simp [State.dispatch, hi]
  | other => simp [State.dispatch]

/-- A bound manager can only come from a prior registry announcement of the
virtual-pointer-manager interface. -/
lemma pm_bound_origin :
    ∀ (tr : List (ℕ × WlEvent)) (s : State),
      s.pointer_manager = none →
      (s.runDispatch tr).pointer_manager.isSome = true →
      ∃ f, (f, WlEvent.registryGlobal "zwlr_virtual_pointer_manager_v1") ∈ tr := by
  intro tr
  induction tr with
  | nil =>
    intro s h0 h1
    rw [State.runDispatch] at h1
    simp [h0] at h1
  | cons p rest ih =>
    intro s h0 h1
    obtain ⟨f, e⟩ := p
    by_cases he : e = WlEvent.registryGlobal "zwlr_virtual_pointer_manager_v1"
    · exact ⟨f, by simp [he]⟩
    · have hpm : (s.dispatch f e).pointer_manager = none := by
        rw [dispatch_pm]
        simp [he, h0]
      obtain ⟨g, hg⟩ := ih (s.dispatch f e) hpm
        (by simpa [State.runDispatch] using h1)
      exact ⟨g, by simp [hg]⟩

/-- C9: two-state capability negotiation, Unbound → Bound.  (1) one
dispatched event sets `virtual_pointer` exactly when it is a valid
pointer-capability announcement, the pointer manager is bound and no virtual
pointer exists yet, and otherwise leaves the handle untouched; (2) once
bound, the handle is terminal — no later event replaces it; (3) along any
event trace at most one creation ever happens; (4) starting from
`State::new`, a bound manager can only come from a prior registry
announcement of the `zwlr_virtual_pointer_manager_v1` interface. -/
theorem C9_negotiation :
    (∀ (s : State) (fresh : ℕ) (e : WlEvent),
      (s.dispatch fresh e).virtual_pointer =
        if pointerCapsAnnounced e ∧ s.virtual_pointer.isNone ∧
            s.pointer_manager.isSome then some fresh
        else s.virtual_pointer) ∧
    (∀ (s : State) (fresh : ℕ) (e : WlEvent) (v : ℕ),
      s.virtual_pointer = some v →
      (s.dispatch fresh e).virtual_pointer = some v) ∧
    (∀ (tr : List (ℕ × WlEvent)) (s : State), creationCount s tr ≤ 1) ∧
    (∀ tr : List (ℕ × WlEvent),
      (State.new.runDispatch tr).pointer_manager.isSome = true →
      ∃ f, (f, WlEvent.registryGlobal "zwlr_virtual_pointer_manager_v1") ∈ tr) :=
  ⟨dispatch_vp, dispatch_keeps, creationCount_le_one,
    fun tr h => pm_bound_origin tr State.new rfl h⟩

def s_c9 : State :=
  { pointer_manager := some 0, virtual_pointer := some 3, active_keys := ∅,
    prev_left_click := false, prev_right_click := false }

/-- Witness for C9: a bound handle survives a further pointer-capability
announcement unchanged, and a trace that binds the manager contains the
registry announcement. -/
theorem C9_negotiation_witness :
    (s_c9.dispatch 7 (WlEvent.seatCapabilities true true)).virtual_pointer
        = some 3 ∧
    ∃ f, (f, WlEvent.registryGlobal "zwlr_virtual_pointer_manager_v1") ∈
      [((5 : ℕ), WlEvent.registryGlobal "zwlr_virtual_pointer_manager_v1")] :=
  ⟨C9_negotiation.2.1 s_c9 7 (WlEvent.seatCapabilities true true) 3 rfl,
   C9_negotiation.2.2.2
     [(5, WlEvent.registryGlobal "zwlr_virtual_pointer_manager_v1")]
     (by decide)⟩
